import Mathlib

/-!
pcc-blackbox: verification of `verifyAddNode`, `delAllPortus` and `GetIfaceByMacAddress`

A shallow embedding of three functions of the pcc-blackbox test harness:

* `verifyAddNode` (`persistHwinventory.go`), the coordinator that receives one
  outcome from the channel `done` shared with its two watchers and turns it into
  an `error`;
* `delAllPortus` (`portus.go`), whose wait loop polls `GetPortusNodeById` after a
  delete request;
* `PccClient.GetIfaceByMacAddress` (`lib/interface.go`), a linear search.

Modelling conventions.  A Go `string` is a Lean `String`; a Go `error` is an
`Option String` (`none` is `nil`, `some text` a non-nil error whose `Error()`
text is `text`); a Go pointer is an `Option` (`none` is `nil`).  Output written
with `fmt.Println`/`fmt.Printf` is not modelled.
-/

set_option autoImplicit false

namespace PccBlackbox

/-! ## Go values used by the three functions -/

/-- Go `error`: `none` is `nil`, `some text` is a non-nil error with `Error() = text`. -/
abbrev GoError := Option String

/-- Go `strings.Contains(s, substr)`: `substr` occurs in `s` as a contiguous block.  Go
compares bytes and Lean characters; on UTF-8 text, which is what a `String` holds, the two
agree, since an encoded character never starts inside another one. -/
def stringsContains (s substr : String) : Bool :=
  decide (substr.data <:+: s.data)

/-- Go `fmt.Errorf("%v", msg)` for a string operand: a non-nil error whose text is `msg`. -/
def fmtErrorf (msg : String) : GoError :=
  some msg

/-! ## `verifyAddNode` (persistHwinventory.go, lines 127-157) -/

/-- The outcome type `status` sent on the channel `done`: the fields the coordinator reads. -/
structure status where
  msg : String
  isError : Bool
deriving DecidableEq, Repr

/-- The unbuffered channel `done` as seen by the receiver, one entry per scheduling step:
`some s` when a sender is ready to hand over `s` at that step, `none` when no sender is
ready.  The list is the observed prefix of the run; its length is the time observed. -/
abbrev DoneChan := List (Option status)

/-- The sequence of attempted deliveries of a run, in order. -/
def deliveries (done : DoneChan) : List status :=
  done.reduceOption

/-- The receive `s := <-done` (line 141): the receiver stays blocked while no sender is
ready and takes the first value handed over.  `none` means it is still blocked at the end
of the observed prefix; otherwise the received value and the rest of the run are returned. -/
def recvDone : DoneChan → Option (status × DoneChan)
  | [] => none
  | none :: rest => recvDone rest
  | some s :: rest => some (s, rest)

/-- Lines 147-155 of `verifyAddNode`: the named result `err` computed from the received
outcome `s`.  `NOTIFICATION` and `FAILED_NOTIFICATION` stand for the constants
`PXEBOOT_NODE_ADD_NOTIFICATION` and `PXEBOOT_NODE_ADD_FAILED_NOTIFICATION`, which are
declared outside the three source files. -/
def verifyAddNodeErr (NOTIFICATION FAILED_NOTIFICATION : String) (s : status) : GoError :=
  if !s.isError then
    if stringsContains s.msg NOTIFICATION then
      none
    else if stringsContains s.msg FAILED_NOTIFICATION then
      fmtErrorf s.msg
    else
      none
  else
    fmtErrorf s.msg

/-- Who can send on `done` (lines 131-140): the two watchers are started only when
`action == "nodeAdd"`; for any other action nobody ever sends.  `watchers` is what the
two watchers offer on `done` over time (their code is outside the three source files). -/
def doneSenders (action : String) (watchers : DoneChan) : DoneChan :=
  if action = "nodeAdd" then watchers else watchers.map (fun _ => none)

/-- The function `verifyAddNode(from, action)`: start the watchers, receive once from
`done` with no alternative branch, compute `err`.  The result is `none` while the call is
still blocked in the receive, and `some (err, rest)` once it has returned, `rest` being what
is left of the run of `done` after the single receive. -/
def verifyAddNode (NOTIFICATION FAILED_NOTIFICATION : String) (action : String)
    (watchers : DoneChan) : Option (GoError × DoneChan) :=
  match recvDone (doneSenders action watchers) with
  | none => none
  | some (s, rest) => some (verifyAddNodeErr NOTIFICATION FAILED_NOTIFICATION s, rest)

/-! ## `delAllPortus` (portus.go, lines 138-189) -/

/-- A run-time panic of the Go program. -/
inductive Panic where
  | nilDereference
deriving DecidableEq, Repr

/-- The method call `err.Error()`: the text of a non-nil error; on a nil error value the
call dereferences nil and panics. -/
def errorMethod : GoError → Except Panic String
  | some text => .ok text
  | none => .error .nilDereference

/-- The verb `%v` of `fmt` applied to an `error` operand. -/
def fmtV : GoError → String
  | some text => text
  | none => "<nil>"

/-- The fields of `pcc.PortusConfiguration` read by `delAllPortus`. -/
structure PortusConfiguration where
  ID : Nat
  Name : String
deriving DecidableEq, Repr

/-- What the `select` of the wait loop (lines 168-186) receives in one iteration: a tick,
together with the error that `Pcc.GetPortusNodeById(id)` returns at that tick, or the
10-minute timeout. -/
inductive WaitEvent where
  | tick (getErr : GoError)
  | timeout
deriving DecidableEq, Repr

/-- How the wait loop of one Portus ends. -/
inductive WaitResult where
  /-- The loop left with `done = true`. -/
  | done
  /-- A call of `assert.Fatalf` or `assert.Fatal`: the test is failed and stopped. -/
  | fatal (msg : String)
  /-- A run-time panic. -/
  | panicked (p : Panic)
  /-- The loop is still waiting at the end of the observed events. -/
  | waiting
deriving DecidableEq, Repr

/-- The wait loop `for !done { select { ... } }` (lines 167-187) over the events that its
`select` receives, in order. -/
def waitLoop : List WaitEvent → WaitResult
  | [] => .waiting
  | .timeout :: _ => .fatal "Timeout deleting Portus\n"
  | .tick err :: rest =>
    if err ≠ none then
      .fatal ("Failed Get Portus: " ++ fmtV err ++ "\n")
    else
      match errorMethod err with
      | .error p => .panicked p
      | .ok text =>
        if text = "record not found" then
          .done
        else
          waitLoop rest

/-- How a run of the test function `delAllPortus` ends. -/
inductive TestRun where
  /-- The function `test.SkipIfDryRun` skipped the test. -/
  | skipped
  /-- The function returned without failing the test. -/
  | passed
  /-- A call of `assert.Fatalf` or `assert.Fatal`: the test is failed and stopped. -/
  | fatal (msg : String)
  /-- A run-time panic. -/
  | panicked (p : Panic)
  /-- A wait loop is still waiting at the end of the observed events. -/
  | waiting
deriving DecidableEq, Repr

/-- The collaborators of `delAllPortus`: the dry-run flag, the results of the three
`Pcc` calls, and for each Portus id the events its wait loop receives. -/
structure PortusEnv where
  dryRun : Bool
  GetPortusNodes : Except String (List PortusConfiguration)
  DelPortusNode : Nat → GoError
  waitEvents : Nat → List WaitEvent

/-- The loop `for _, p := range portusConfigs` (lines 154-188). -/
def delAllPortusRange (env : PortusEnv) : List PortusConfiguration → TestRun
  | [] => .passed
  | p :: ps =>
    match env.DelPortusNode p.ID with
    | some e => .fatal ("Failed to delete Portus " ++ p.Name ++ ": " ++ e ++ "\n")
    | none =>
      match waitLoop (env.waitEvents p.ID) with
      | .done => delAllPortusRange env ps
      | .fatal msg => .fatal msg
      | .panicked q => .panicked q
      | .waiting => .waiting

/-- The test function `delAllPortus(t)`. -/
def delAllPortus (env : PortusEnv) : TestRun :=
  if env.dryRun then
    .skipped
  else
    match env.GetPortusNodes with
    | .error e => .fatal ("Failed to get portus nodes: " ++ e ++ "\n")
    | .ok portusConfigs => delAllPortusRange env portusConfigs

/-! ## `PccClient.GetIfaceByMacAddress` (lib/interface.go, lines 115-128) -/

/-- The fields of the embedded `models.Interface` read in `lib/interface.go`. -/
structure Interface where
  Id : Int
  MacAddress : String
deriving DecidableEq, Repr

/-- The struct `InterfaceDetail`; `Remote` stands for the type `avro.Interface`, which is
declared outside the three source files. -/
structure InterfaceDetail (Remote : Type) where
  Interface : Option Interface
  RemoteLinksDetails : List (Option Remote)

/-- The loop `for i := 0; i < len(ifaces); i++` (lines 120-125) followed by lines 126-127,
over the entries not yet visited.  Reading `ifaces[i].Interface.MacAddress` through a nil
pointer panics. -/
def GetIfaceByMacAddressLoop {Remote : Type} (mAddr : String) :
    List (Option (InterfaceDetail Remote)) →
      Except Panic (Option (InterfaceDetail Remote) × GoError)
  | [] => .ok (none, some ("Error: couldn't find mac [" ++ mAddr ++ "]\n"))
  | p :: rest =>
    match p with
    | none => .error .nilDereference
    | some d =>
      match d.Interface with
      | none => .error .nilDereference
      | some i =>
        if i.MacAddress = mAddr then
          .ok (some d, none)
        else
          GetIfaceByMacAddressLoop mAddr rest

/-- The method `GetIfaceByMacAddress(mAddr, ifaces)`, returning `(iface, err)`. -/
def GetIfaceByMacAddress {Remote : Type} (mAddr : String)
    (ifaces : List (Option (InterfaceDetail Remote))) :
    Except Panic (Option (InterfaceDetail Remote) × GoError) :=
  if mAddr = "" then
    .ok (none, some ("Invalid mac [" ++ mAddr ++ "]\n"))
  else
    GetIfaceByMacAddressLoop mAddr ifaces

/-- The MAC address read by `ifaces[i].Interface.MacAddress` at a list entry, when neither
pointer is nil. -/
def macOf {Remote : Type} (p : Option (InterfaceDetail Remote)) : Option String :=
  match p with
  | none => none
  | some d => d.Interface.map (fun i => i.MacAddress)

/-- Every entry of the list and its `Interface` field are non-nil. -/
def NonNilEntries {Remote : Type} (ifaces : List (Option (InterfaceDetail Remote))) : Prop :=
  ∀ p ∈ ifaces, (macOf p).isSome = true

instance {Remote : Type} (ifaces : List (Option (InterfaceDetail Remote))) :
    Decidable (NonNilEntries ifaces) :=
  inferInstanceAs (Decidable (∀ p ∈ ifaces, (macOf p).isSome = true))

/-! ## Lemmas on the receive -/

theorem recvDone_after_idle (n : Nat) (s : status) (rest : DoneChan) :
    recvDone (List.replicate n none ++ some s :: rest) = some (s, rest) := by
  induction n with
  | zero => rfl
  | succ k ih => simpa [List.replicate_succ, recvDone] using ih

theorem recvDone_eq_none_iff (done : DoneChan) :
    recvDone done = none ↔ deliveries done = [] := by
  induction done with
  | nil => simp [recvDone, deliveries]
  | cons o rest ih =>
    cases o with
    | none => simpa [recvDone, deliveries, List.reduceOption_cons_of_none] using ih
    | some s => simp [recvDone, deliveries, List.reduceOption_cons_of_some]

theorem recvDone_deliveries (done : DoneChan) (s : status) (rest : DoneChan)
    (h : recvDone done = some (s, rest)) :
    deliveries done = s :: deliveries rest := by
  induction done with
  | nil => simp [recvDone] at h
  | cons o tl ih =>
    cases o with
    | none =>
      simp only [recvDone] at h
      simpa [deliveries, List.reduceOption_cons_of_none] using ih h
    | some x =>
      simp only [recvDone, Option.some.injEq, Prod.mk.injEq] at h
      obtain ⟨rfl, rfl⟩ := h
      simp [deliveries, List.reduceOption_cons_of_some]

theorem recvDone_of_first_delivery (done : DoneChan) (s : status)
    (h : (deliveries done).head? = some s) :
    ∃ rest, recvDone done = some (s, rest) ∧ deliveries done = s :: deliveries rest := by
  induction done with
  | nil => simp [deliveries] at h
  | cons o tl ih =>
    cases o with
    | none =>
      have h2 : (deliveries tl).head? = some s := by
        simpa [deliveries, List.reduceOption_cons_of_none] using h
      obtain ⟨rest, hr, hd⟩ := ih h2
      exact ⟨rest, by simpa [recvDone] using hr,
        by simpa [deliveries, List.reduceOption_cons_of_none] using hd⟩
    | some x =>
      have hx : x = s := by
        simpa [deliveries, List.reduceOption_cons_of_some] using h
      subst hx
      exact ⟨tl, rfl, by simp [deliveries, List.reduceOption_cons_of_some]⟩

theorem doneSenders_nodeAdd (watchers : DoneChan) :
    doneSenders "nodeAdd" watchers = watchers := by
  simp [doneSenders]

theorem deliveries_doneSenders_other (action : String) (h : action ≠ "nodeAdd")
    (watchers : DoneChan) : deliveries (doneSenders action watchers) = [] := by
  simp only [doneSenders, if_neg h]
  induction watchers with
  | nil => rfl
  | cons o tl ih => simpa [deliveries, List.reduceOption_cons_of_none] using ih

theorem stringsContains_append_left (a b : String) : stringsContains (a ++ b) a = true := by
  simpa [stringsContains] using (List.prefix_append a.data b.data).isInfix

theorem stringsContains_append_right (a b : String) : stringsContains (a ++ b) b = true := by
  simpa [stringsContains] using (List.suffix_append a.data b.data).isInfix

theorem stringsContains_empty_of_ne (p : String) (h : p ≠ "") :
    stringsContains "" p = false := by
  simp only [stringsContains, decide_eq_false_iff_not]
  intro hin
  apply h
  apply String.ext
  simpa using hin

theorem verifyAddNode_of_recv (N F action : String) (watchers : DoneChan) (s : status)
    (rest : DoneChan) (h : recvDone (doneSenders action watchers) = some (s, rest)) :
    verifyAddNode N F action watchers = some (verifyAddNodeErr N F s, rest) := by
  simp [verifyAddNode, h]

theorem verifyAddNode_after_idle (N F : String) (n : Nat) (s : status) (rest : DoneChan) :
    verifyAddNode N F "nodeAdd" (List.replicate n none ++ some s :: rest)
      = some (verifyAddNodeErr N F s, rest) :=
  verifyAddNode_of_recv N F "nodeAdd" _ s rest
    (by rw [doneSenders_nodeAdd]; exact recvDone_after_idle n s rest)

theorem verifyAddNode_eq_none_iff (N F action : String) (watchers : DoneChan) :
    verifyAddNode N F action watchers = none
      ↔ deliveries (doneSenders action watchers) = [] := by
  rw [← recvDone_eq_none_iff]
  unfold verifyAddNode
  cases recvDone (doneSenders action watchers) <;> simp

theorem deliveries_replicate_none (n : Nat) :
    deliveries (List.replicate n (none : Option status)) = [] := by
  induction n with
  | zero => rfl
  | succ k ih => simpa [List.replicate_succ, deliveries, List.reduceOption_cons_of_none] using ih

theorem verifyAddNodeErr_eq_some (N F : String) (s : status) (t : String)
    (h : verifyAddNodeErr N F s = some t) :
    s.msg = t ∧ (s.isError = true ∨ stringsContains s.msg F = true) := by
  revert h
  cases hE : s.isError <;> cases hN : stringsContains s.msg N <;>
    cases hF : stringsContains s.msg F <;>
    simp [verifyAddNodeErr, hE, hN, hF, fmtErrorf]

theorem verifyAddNode_returned (N F action : String) (watchers : DoneChan) (err : GoError)
    (rest : DoneChan) (h : verifyAddNode N F action watchers = some (err, rest)) :
    action = "nodeAdd"
      ∧ ∃ s : status, recvDone watchers = some (s, rest) ∧ err = verifyAddNodeErr N F s := by
  by_cases hact : action = "nodeAdd"
  · subst hact
    refine ⟨rfl, ?_⟩
    unfold verifyAddNode at h
    rw [doneSenders_nodeAdd] at h
    cases hr : recvDone watchers with
    | none => simp [hr] at h
    | some pr =>
      obtain ⟨s, rest2⟩ := pr
      simp only [hr, Option.some.injEq, Prod.mk.injEq] at h
      obtain ⟨h1, h2⟩ := h
      subst h2
      exact ⟨s, rfl, h1.symm⟩
  · have hnone : verifyAddNode N F action watchers = none := by
      rw [verifyAddNode_eq_none_iff]
      exact deliveries_doneSenders_other action hact watchers
    rw [hnone] at h
    exact Option.noConfusion h

/-! ## The claims on `verifyAddNode` -/

/-- C1: whenever the receive of `verifyAddNode` yields an outcome `s` with
`s.isError = true`, whatever its message, the call returns a non-nil error whose text is
exactly `s.msg`. -/
theorem verifyAddNode_error_outcome (N F action : String) (watchers : DoneChan)
    (s : status) (rest : DoneChan)
    (hrecv : recvDone (doneSenders action watchers) = some (s, rest))
    (herr : s.isError = true) :
    verifyAddNode N F action watchers = some (some s.msg, rest) := by
  rw [verifyAddNode_of_recv N F action watchers s rest hrecv]
  simp [verifyAddNodeErr, herr, fmtErrorf]

/-- Witness of C1: a watcher delivers the outcome `timeout` after one idle step. -/
theorem verifyAddNode_error_outcome_witness :
    verifyAddNode "added" "failed" "nodeAdd" [none, some ⟨"timeout", true⟩]
      = some (some "timeout", []) :=
  verifyAddNode_error_outcome "added" "failed" "nodeAdd" [none, some ⟨"timeout", true⟩]
    ⟨"timeout", true⟩ [] (by decide) rfl

/-- Counterexample to C2: a non-error outcome whose message contains both patterns is
returned as a nil error, and this happens for every choice of the two pattern constants:
no choice of them makes the claim hold. -/
theorem verifyAddNode_failure_pattern_counterexample :
    (stringsContains "node added; add failed" "add failed" = true
      ∧ verifyAddNode "added" "add failed" "nodeAdd"
          [some ⟨"node added; add failed", false⟩] = some (none, []))
    ∧ ¬ ∃ N F : String, ∀ (s : status) (n : Nat) (rest : DoneChan),
        stringsContains s.msg F = true →
        verifyAddNode N F "nodeAdd" (List.replicate n none ++ some s :: rest)
          = some (some s.msg, rest) := by
  refine ⟨⟨by decide, by decide⟩, ?_⟩
  rintro ⟨N, F, h⟩
  have h1 := h ⟨N ++ F, false⟩ 0 [] (stringsContains_append_right N F)
  rw [verifyAddNode_after_idle] at h1
  simp [verifyAddNodeErr, stringsContains_append_left] at h1

/-- C2 as amended: an outcome whose message contains the failure pattern, and which is an
error outcome or does not contain the success pattern, is returned as a non-nil error whose
text is `s.msg` verbatim. -/
theorem verifyAddNode_failure_pattern (N F action : String) (watchers : DoneChan)
    (s : status) (rest : DoneChan)
    (hrecv : recvDone (doneSenders action watchers) = some (s, rest))
    (hfail : stringsContains s.msg F = true)
    (hside : s.isError = true ∨ stringsContains s.msg N = false) :
    verifyAddNode N F action watchers = some (some s.msg, rest) := by
  rw [verifyAddNode_of_recv N F action watchers s rest hrecv]
  rcases hside with h | h
  · simp [verifyAddNodeErr, h, fmtErrorf]
  · cases hE : s.isError <;> simp [verifyAddNodeErr, hE, h, hfail, fmtErrorf]

/-- Witness of the amended C2: a non-error outcome with the failure pattern only. -/
theorem verifyAddNode_failure_pattern_witness :
    verifyAddNode "added" "add failed" "nodeAdd" [some ⟨"node 12: add failed", false⟩]
      = some (some "node 12: add failed", []) :=
  verifyAddNode_failure_pattern "added" "add failed" "nodeAdd"
    [some ⟨"node 12: add failed", false⟩] ⟨"node 12: add failed", false⟩ [] rfl
    (by decide) (Or.inr (by decide))

/-- C3: whenever the receive of `verifyAddNode` yields an outcome `s` with
`s.isError = false` whose message contains the success pattern, the call returns a nil
error. -/
theorem verifyAddNode_success_pattern (N F action : String) (watchers : DoneChan)
    (s : status) (rest : DoneChan)
    (hrecv : recvDone (doneSenders action watchers) = some (s, rest))
    (hok : s.isError = false)
    (hsucc : stringsContains s.msg N = true) :
    verifyAddNode N F action watchers = some (none, rest) := by
  rw [verifyAddNode_of_recv N F action watchers s rest hrecv]
  simp [verifyAddNodeErr, hok, hsucc]

/-- Witness of C3: a non-error outcome with the success pattern. -/
theorem verifyAddNode_success_pattern_witness :
    verifyAddNode "added" "add failed" "nodeAdd" [none, none, some ⟨"node 12 added", false⟩]
      = some (none, []) :=
  verifyAddNode_success_pattern "added" "add failed" "nodeAdd"
    [none, none, some ⟨"node 12 added", false⟩] ⟨"node 12 added", false⟩ [] rfl rfl
    (by decide)

/-- Counterexample to C4: a non-error outcome whose message contains neither pattern is
returned as a nil error, and for no pair of non-empty pattern constants does the claim
hold. -/
theorem verifyAddNode_nil_only_success_counterexample :
    (stringsContains "node 12 is rebooting" "added" = false
      ∧ verifyAddNode "added" "add failed" "nodeAdd"
          [some ⟨"node 12 is rebooting", false⟩] = some (none, []))
    ∧ ¬ ∃ N F : String, N ≠ "" ∧ F ≠ "" ∧
        ∀ (s : status) (n : Nat) (rest : DoneChan),
          verifyAddNode N F "nodeAdd" (List.replicate n none ++ some s :: rest)
            = some (none, rest) →
          s.isError = false ∧ stringsContains s.msg N = true := by
  refine ⟨⟨by decide, by decide⟩, ?_⟩
  rintro ⟨N, F, hN, hF, h⟩
  have hrun : verifyAddNode N F "nodeAdd" (List.replicate 0 none ++ some ⟨"", false⟩ :: [])
      = some (none, []) := by
    rw [verifyAddNode_after_idle]
    simp [verifyAddNodeErr, stringsContains_empty_of_ne N hN, stringsContains_empty_of_ne F hF]
  have h1 := (h ⟨"", false⟩ 0 [] hrun).2
  rw [stringsContains_empty_of_ne N hN] at h1
  exact Bool.false_ne_true h1

/-- C4 as amended: if the error returned by `verifyAddNode` is nil, then the received
outcome `s` has `s.isError = false` and its message contains the success pattern or does
not contain the failure pattern. -/
theorem verifyAddNode_nil_only_nonerror (N F action : String) (watchers : DoneChan)
    (s : status) (rest : DoneChan)
    (hrecv : recvDone (doneSenders action watchers) = some (s, rest))
    (hnil : verifyAddNode N F action watchers = some (none, rest)) :
    s.isError = false
      ∧ (stringsContains s.msg N = true ∨ stringsContains s.msg F = false) := by
  rw [verifyAddNode_of_recv N F action watchers s rest hrecv] at hnil
  revert hnil
  cases hE : s.isError <;> cases hN : stringsContains s.msg N <;>
    cases hF : stringsContains s.msg F <;>
    simp [verifyAddNodeErr, hE, hN, hF, fmtErrorf]

/-- Witness of the amended C4: the call returns nil on a non-error outcome that carries
the success pattern. -/
theorem verifyAddNode_nil_only_nonerror_witness :
    verifyAddNode "added" "add failed" "nodeAdd" [none, some ⟨"node 12 added", false⟩]
        = some (none, [])
    ∧ (⟨"node 12 added", false⟩ : status).isError = false
    ∧ (stringsContains (⟨"node 12 added", false⟩ : status).msg "added" = true
        ∨ stringsContains (⟨"node 12 added", false⟩ : status).msg "add failed" = false) :=
  ⟨by decide,
    verifyAddNode_nil_only_nonerror "added" "add failed" "nodeAdd"
      [none, some ⟨"node 12 added", false⟩] ⟨"node 12 added", false⟩ [] rfl (by decide)⟩

/-- C5: in a race with the two watchers started, `verifyAddNode` consumes exactly one
outcome from `done` (the first attempted delivery; all later ones are left in the run),
and two runs whose first attempted delivery is the same outcome return the same error. -/
theorem verifyAddNode_single_outcome (N F : String) (run1 run2 : DoneChan) (s : status)
    (h1 : (deliveries run1).head? = some s) (h2 : (deliveries run2).head? = some s) :
    ∃ (err : GoError) (rest1 rest2 : DoneChan),
      verifyAddNode N F "nodeAdd" run1 = some (err, rest1)
      ∧ verifyAddNode N F "nodeAdd" run2 = some (err, rest2)
      ∧ deliveries run1 = s :: deliveries rest1
      ∧ deliveries run2 = s :: deliveries rest2 := by
  obtain ⟨rest1, hr1, hd1⟩ := recvDone_of_first_delivery run1 s h1
  obtain ⟨rest2, hr2, hd2⟩ := recvDone_of_first_delivery run2 s h2
  refine ⟨verifyAddNodeErr N F s, rest1, rest2, ?_, ?_, hd1, hd2⟩
  · exact verifyAddNode_of_recv N F "nodeAdd" run1 s rest1 (by rw [doneSenders_nodeAdd]; exact hr1)
  · exact verifyAddNode_of_recv N F "nodeAdd" run2 s rest2 (by rw [doneSenders_nodeAdd]; exact hr2)

/-- Witness of C5: the success watcher delivers first in both runs; in the first run the
failure watcher attempts a delivery afterwards, in the second a timeout follows. -/
theorem verifyAddNode_single_outcome_witness :
    ∃ (err : GoError) (rest1 rest2 : DoneChan),
      verifyAddNode "added" "add failed" "nodeAdd"
          [none, some ⟨"node 12 added", false⟩, some ⟨"node 12: add failed", false⟩]
        = some (err, rest1)
      ∧ verifyAddNode "added" "add failed" "nodeAdd"
          [some ⟨"node 12 added", false⟩, none, some ⟨"timeout", true⟩]
        = some (err, rest2)
      ∧ deliveries [none, some ⟨"node 12 added", false⟩, some ⟨"node 12: add failed", false⟩]
        = ⟨"node 12 added", false⟩ :: deliveries rest1
      ∧ deliveries [some ⟨"node 12 added", false⟩, none, some ⟨"timeout", true⟩]
        = ⟨"node 12 added", false⟩ :: deliveries rest2 :=
  verifyAddNode_single_outcome "added" "add failed"
    [none, some ⟨"node 12 added", false⟩, some ⟨"node 12: add failed", false⟩]
    [some ⟨"node 12 added", false⟩, none, some ⟨"timeout", true⟩]
    ⟨"node 12 added", false⟩ rfl rfl

/-- Counterexample to C6: with no watcher started (an action other than `nodeAdd`), or
with watchers that deliver nothing during 600 steps, the call is still blocked in the
receive; and no timeout bound `T` exists after which a run without any delivery makes the
call return the error `timeout`. -/
theorem verifyAddNode_coordinator_timeout_counterexample :
    (verifyAddNode "added" "add failed" "nodeDel" [none, none, none] = none
      ∧ verifyAddNode "added" "add failed" "nodeAdd" (List.replicate 600 none) = none)
    ∧ ¬ ∃ T : Nat, ∀ (N F action : String) (watchers : DoneChan),
        T ≤ watchers.length → deliveries (doneSenders action watchers) = [] →
        ∃ rest, verifyAddNode N F action watchers = some (some "timeout", rest) := by
  refine ⟨⟨by decide, ?_⟩, ?_⟩
  · rw [verifyAddNode_eq_none_iff, doneSenders_nodeAdd]
    exact deliveries_replicate_none 600
  · rintro ⟨T, h⟩
    have hd : deliveries (doneSenders "nodeAdd" (List.replicate T none)) = [] := by
      rw [doneSenders_nodeAdd]
      exact deliveries_replicate_none T
    obtain ⟨rest, hr⟩ := h "added" "add failed" "nodeAdd" (List.replicate T none) (by simp) hd
    rw [(verifyAddNode_eq_none_iff "added" "add failed" "nodeAdd" _).2 hd] at hr
    exact Option.noConfusion hr

/-- C6 as amended: `verifyAddNode` has no timeout of its own and never produces a timeout
outcome itself.  It is blocked in the receive exactly as long as nothing has been
delivered on `done`, however long the run; for an action other than `nodeAdd` it is
blocked in every run.  A timeout reaches the caller only as an outcome delivered by a
watcher: when the first delivery is the error outcome with message `timeout`, the call
returns a non-nil error whose text is `timeout`; and whenever the call returns a non-nil
error with text `t`, the watchers were started and the first outcome delivered on `done`
carries the message `t` and is an error outcome or contains the failure pattern. -/
theorem verifyAddNode_timeout_from_watcher (N F : String) :
    (∀ (action : String) (watchers : DoneChan),
        verifyAddNode N F action watchers = none
          ↔ deliveries (doneSenders action watchers) = [])
    ∧ (∀ (action : String) (watchers : DoneChan), action ≠ "nodeAdd" →
        verifyAddNode N F action watchers = none)
    ∧ (∀ (n : Nat) (rest : DoneChan),
        verifyAddNode N F "nodeAdd" (List.replicate n none ++ some ⟨"timeout", true⟩ :: rest)
          = some (some "timeout", rest))
    ∧ (∀ (action : String) (watchers : DoneChan) (t : String) (rest : DoneChan),
        verifyAddNode N F action watchers = some (some t, rest) →
        action = "nodeAdd"
          ∧ ∃ s : status, deliveries watchers = s :: deliveries rest
              ∧ s.msg = t
              ∧ (s.isError = true ∨ stringsContains s.msg F = true)) := by
  refine ⟨fun action watchers => verifyAddNode_eq_none_iff N F action watchers, ?_, ?_, ?_⟩
  · intro action watchers h
    rw [verifyAddNode_eq_none_iff]
    exact deliveries_doneSenders_other action h watchers
  · intro n rest
    rw [verifyAddNode_after_idle]
    simp [verifyAddNodeErr, fmtErrorf]
  · intro action watchers t rest hret
    obtain ⟨hact, s, hrecv, herr⟩ := verifyAddNode_returned N F action watchers (some t) rest hret
    obtain ⟨hmsg, hkind⟩ := verifyAddNodeErr_eq_some N F s t herr.symm
    exact ⟨hact, s, recvDone_deliveries watchers s rest hrecv, hmsg, hkind⟩

/-- Witness of the amended C6: an action other than `nodeAdd` leaves the call blocked, and
a returned error `timeout` is traced back to the outcome that a watcher delivered first. -/
theorem verifyAddNode_timeout_from_watcher_witness :
    verifyAddNode "added" "add failed" "nodeDel" [some ⟨"timeout", true⟩] = none
    ∧ ("nodeAdd" = "nodeAdd"
        ∧ ∃ s : status,
            deliveries [none, some ⟨"timeout", true⟩, some ⟨"node 12 added", false⟩]
                = s :: deliveries [some ⟨"node 12 added", false⟩]
              ∧ s.msg = "timeout"
              ∧ (s.isError = true ∨ stringsContains s.msg "add failed" = true)) :=
  ⟨(verifyAddNode_timeout_from_watcher "added" "add failed").2.1 "nodeDel"
      [some ⟨"timeout", true⟩] (by decide),
    (verifyAddNode_timeout_from_watcher "added" "add failed").2.2.2 "nodeAdd"
      [none, some ⟨"timeout", true⟩, some ⟨"node 12 added", false⟩] "timeout"
      [some ⟨"node 12 added", false⟩] (by decide)⟩

/-! ## The wait loop of `delAllPortus` -/

theorem waitLoop_tick_error (text : String) (rest : List WaitEvent) :
    waitLoop (.tick (some text) :: rest) = .fatal ("Failed Get Portus: " ++ text ++ "\n") := by
  simp [waitLoop, fmtV]

theorem waitLoop_tick_nil (rest : List WaitEvent) :
    waitLoop (.tick none :: rest) = .panicked .nilDereference := by
  simp [waitLoop, errorMethod]

theorem waitLoop_ne_done (events : List WaitEvent) : waitLoop events ≠ .done := by
  cases events with
  | nil => simp [waitLoop]
  | cons e rest =>
    cases e with
    | timeout => simp [waitLoop]
    | tick err =>
      cases err with
      | none => simp [waitLoop_tick_nil]
      | some text => simp [waitLoop_tick_error]

/-- C7, the code at the failing input: a tick at which `GetPortusNodeById` returns the
error `record not found` does not leave the wait loop with `done = true`; the guard
`err != nil` fails the test with `Failed Get Portus`, so that with two Portus whose delete
requests succeed the run stops at the first one; and no sequence of events at all makes
the wait loop end with `done = true`. -/
theorem delAllPortus_record_not_found_fatal :
    (∀ rest : List WaitEvent,
        waitLoop (.tick (some "record not found") :: rest)
          = .fatal "Failed Get Portus: record not found\n")
    ∧ delAllPortus
        { dryRun := false
          GetPortusNodes := .ok [⟨7, "portus_7"⟩, ⟨8, "portus_8"⟩]
          DelPortusNode := fun _ => none
          waitEvents := fun _ => [.tick (some "record not found")] }
        = .fatal "Failed Get Portus: record not found\n"
    ∧ (∀ events : List WaitEvent, waitLoop events ≠ .done) := by
  refine ⟨fun rest => ?_, ?_, waitLoop_ne_done⟩
  · rw [waitLoop_tick_error]; rfl
  · simp [delAllPortus, delAllPortusRange, waitLoop_tick_error]

/-- C8, the code at the failing input: a tick at which `GetPortusNodeById` returns a nil
error passes the guard `err != nil` and reaches `err.Error()` on the nil error value, a nil
dereference; the loop does not go on to the next tick. -/
theorem delAllPortus_nil_error_panics :
    (∀ rest : List WaitEvent, waitLoop (.tick none :: rest) = .panicked .nilDereference)
    ∧ delAllPortus
        { dryRun := false
          GetPortusNodes := .ok [⟨7, "portus_7"⟩]
          DelPortusNode := fun _ => none
          waitEvents := fun _ => [.tick none, .tick (some "record not found")] }
        = .panicked .nilDereference := by
  refine ⟨waitLoop_tick_nil, ?_⟩
  simp [delAllPortus, delAllPortusRange, waitLoop_tick_nil]

/-! ## `GetIfaceByMacAddress` is a first-match search -/

theorem nonNilEntries_head {Remote : Type} (p : Option (InterfaceDetail Remote))
    (rest : List (Option (InterfaceDetail Remote))) (h : NonNilEntries (p :: rest)) :
    ∃ d i, p = some d ∧ d.Interface = some i := by
  have hp := h p (List.mem_cons_self _ _)
  cases p with
  | none => simp [macOf] at hp
  | some d =>
    cases hi : d.Interface with
    | none => simp [macOf, hi] at hp
    | some i => exact ⟨d, i, rfl, hi⟩

theorem nonNilEntries_tail {Remote : Type} (p : Option (InterfaceDetail Remote))
    (rest : List (Option (InterfaceDetail Remote))) (h : NonNilEntries (p :: rest)) :
    NonNilEntries rest :=
  fun q hq => h q (List.mem_cons_of_mem p hq)

theorem loop_first_match {Remote : Type} (mAddr : String)
    (ifaces : List (Option (InterfaceDetail Remote))) (hnn : NonNilEntries ifaces)
    (k : Nat) (p : Option (InterfaceDetail Remote))
    (hk : ifaces[k]? = some p) (hmac : macOf p = some mAddr)
    (hleast : ∀ j q, j < k → ifaces[j]? = some q → macOf q ≠ some mAddr) :
    GetIfaceByMacAddressLoop mAddr ifaces = .ok (p, none) := by
  induction ifaces generalizing k with
  | nil => simp at hk
  | cons hd tl ih =>
    obtain ⟨d, i, rfl, hi⟩ := nonNilEntries_head hd tl hnn
    cases k with
    | zero =>
      simp only [List.getElem?_cons_zero, Option.some.injEq] at hk
      subst hk
      have : i.MacAddress = mAddr := by simpa [macOf, hi] using hmac
      simp [GetIfaceByMacAddressLoop, hi, this]
    | succ m =>
      have hne : i.MacAddress ≠ mAddr := by
        have := hleast 0 (some d) (Nat.succ_pos m) (by simp)
        simpa [macOf, hi] using this
      have hrec := ih (nonNilEntries_tail _ _ hnn) m (by simpa using hk)
        (fun j q hj hq => hleast (j + 1) q (Nat.succ_lt_succ hj) (by simpa using hq))
      simp [GetIfaceByMacAddressLoop, hi, hne, hrec]

theorem loop_no_match {Remote : Type} (mAddr : String)
    (ifaces : List (Option (InterfaceDetail Remote))) (hnn : NonNilEntries ifaces)
    (hnone : ∀ p ∈ ifaces, macOf p ≠ some mAddr) :
    GetIfaceByMacAddressLoop mAddr ifaces
      = .ok (none, some ("Error: couldn't find mac [" ++ mAddr ++ "]\n")) := by
  induction ifaces with
  | nil => rfl
  | cons hd tl ih =>
    obtain ⟨d, i, rfl, hi⟩ := nonNilEntries_head hd tl hnn
    have hne : i.MacAddress ≠ mAddr := by
      have := hnone (some d) (List.mem_cons_self _ _)
      simpa [macOf, hi] using this
    have hrec := ih (nonNilEntries_tail _ _ hnn)
      (fun p hp => hnone p (List.mem_cons_of_mem _ hp))
    simp [GetIfaceByMacAddressLoop, hi, hne, hrec]

/-- C9: `GetIfaceByMacAddress` is a first-match search.  For a non-empty `mAddr` and a
list with non-nil entries it returns `(ifaces[k], nil)` for the least index `k` whose
`Interface.MacAddress` equals `mAddr`, and `(nil, err)` with a non-nil `err` when no index
has that address; for `mAddr = ""` it returns `(nil, err)` with a non-nil `err` for every
list, also one with an interface whose MAC address is empty. -/
theorem GetIfaceByMacAddress_first_match {Remote : Type} (mAddr : String)
    (ifaces : List (Option (InterfaceDetail Remote))) :
    (mAddr ≠ "" → NonNilEntries ifaces →
      (∀ (k : Nat) (hk : k < ifaces.length),
          macOf ifaces[k] = some mAddr →
          (∀ (j : Nat) (hj : j < ifaces.length), j < k → macOf ifaces[j] ≠ some mAddr) →
          GetIfaceByMacAddress mAddr ifaces = .ok (ifaces[k], none))
      ∧ ((∀ (k : Nat) (hk : k < ifaces.length), macOf ifaces[k] ≠ some mAddr) →
          ∃ text : String, GetIfaceByMacAddress mAddr ifaces = .ok (none, some text)))
    ∧ (mAddr = "" →
        ∃ text : String, GetIfaceByMacAddress mAddr ifaces = .ok (none, some text)) := by
  refine ⟨fun hne hnn => ⟨?_, ?_⟩, ?_⟩
  · intro k hk hmac hleast
    simp only [GetIfaceByMacAddress, if_neg hne]
    refine loop_first_match mAddr ifaces hnn k ifaces[k] (List.getElem?_eq_getElem hk) hmac ?_
    intro j q hj hq
    have hjl : j < ifaces.length := Nat.lt_trans hj hk
    rw [List.getElem?_eq_getElem hjl] at hq
    cases hq
    exact hleast j hjl hj
  · intro hnone
    refine ⟨"Error: couldn't find mac [" ++ mAddr ++ "]\n", ?_⟩
    simp only [GetIfaceByMacAddress, if_neg hne]
    refine loop_no_match mAddr ifaces hnn ?_
    intro p hp
    obtain ⟨k, hk, rfl⟩ := List.getElem_of_mem hp
    exact hnone k hk
  · intro he
    exact ⟨"Invalid mac [" ++ mAddr ++ "]\n", by simp only [GetIfaceByMacAddress, if_pos he]⟩

/-- Witness of C9: of two interfaces with the MAC address searched for, the one at the
lower index is returned; and a search for the empty address fails on a list that holds an
interface with an empty MAC address. -/
theorem GetIfaceByMacAddress_first_match_witness :
    GetIfaceByMacAddress "cc:dd"
        [some (⟨some ⟨1, "aa:bb"⟩, []⟩ : InterfaceDetail Unit),
          some ⟨some ⟨2, "cc:dd"⟩, []⟩, some ⟨some ⟨3, "cc:dd"⟩, []⟩]
      = .ok (some ⟨some ⟨2, "cc:dd"⟩, []⟩, none)
    ∧ ∃ text : String,
        GetIfaceByMacAddress "" [some (⟨some ⟨1, ""⟩, []⟩ : InterfaceDetail Unit)]
          = .ok (none, some text) :=
  ⟨((GetIfaceByMacAddress_first_match "cc:dd"
        [some (⟨some ⟨1, "aa:bb"⟩, []⟩ : InterfaceDetail Unit),
          some ⟨some ⟨2, "cc:dd"⟩, []⟩, some ⟨some ⟨3, "cc:dd"⟩, []⟩]).1
      (by decide)
      (by decide)).1
      1 (by decide) rfl
      (by
        intro j hj hlt
        obtain rfl : j = 0 := by omega
        simp [macOf]),
   (GetIfaceByMacAddress_first_match ""
      [some (⟨some ⟨1, ""⟩, []⟩ : InterfaceDetail Unit)]).2 rfl⟩

end PccBlackbox
